import Mathlib

/-!
Verification of the PIC18 ICSP protocol driver (`src/pyHydrabus/pic18.py`).

The driver is embedded shallowly as a state monad over a transport state:
every call into the underlying raw-wire transport (line control, bit/byte
transmission, byte reception, clock pulses, the fixed sleep) is recorded as
an `Event` in a trace, and bytes received from the device are consumed from
a fixed input stream.  The raw-wire transport itself is repository code that
is not available here, so its calls are kept abstract as trace events; the
spec allows any transport call to fail (`TransportFailure`, spec section 7),
which is modelled by a failure oracle `fail : Nat -> Bool` consulted at each
transport call (indexed by the number of events already emitted).
-/

set_option maxHeartbeats 1000000

namespace PyHydrabus

/-- One call into the raw-wire transport, as performed by `pic18.py`:
line-control assignments (`self.sda = v`, `self.clk = v`,
`self.AUX[i].value = v`), `write_bits(value, bits)`, byte writes, byte
reads, clock pulses (`self.clocks(n)`) and `time.sleep(seconds)`. -/
inductive Event where
  | sda (v : Nat)
  | clk (v : Nat)
  | aux (i : Nat) (v : Nat)
  | writeBits (value : Nat) (bits : Nat)
  | wr (bytes : List Nat)
  | rd (count : Nat)
  | clocks (n : Nat)
  | sleep (seconds : Nat)
  deriving DecidableEq

/-- Errors an operation can raise: `ValueError` (argument validation in
`read`/`write`), `struct.error` (a short buffer handed to `unpack`), and a
transport failure propagated from the raw-wire collaborator. -/
inductive Err where
  | valueError (msg : String)
  | structError
  | transport
  deriving DecidableEq

/-- Result of running an operation: normal return or a raised error. -/
inductive Res (α : Type) where
  | ok (a : α)
  | err (e : Err)
  deriving DecidableEq

/-- Transport state: the failure oracle (which transport call, counted by
events already emitted, raises a transport failure), the stream of bytes
the device will return, and the trace of transport calls made so far. -/
structure St where
  fail : Nat → Bool
  input : List Nat
  trace : List Event

/-- The driver monad: state passing over `St` with raised errors. -/
def M (α : Type) : Type := St → Res α × St

instance : Monad M where
  pure a := fun s => (Res.ok a, s)
  bind x f := fun s =>
    match x s with
    | (Res.ok a, s1) => f a s1
    | (Res.err e, s1) => (Res.err e, s1)

/-- The failure oracle of a fault-free transport. -/
def noFail : Nat → Bool := fun _ => false

/-- A transport that fails exactly at the k-th transport call. -/
def failAt (k : Nat) : Nat → Bool := fun n => n == k

/-- Perform one transport call: consult the failure oracle, then record the
event. -/
def emit (e : Event) : M Unit := fun s =>
  if s.fail s.trace.length then (Res.err Err.transport, s)
  else (Res.ok (), { s with trace := s.trace ++ [e] })

/-- RawWire `write_bits(value, bits)` (transport primitive, kept abstract). -/
def write_bits (value bits : Nat) : M Unit := emit (Event.writeBits value bits)

/-- RawWire `write(bytes)` (transport primitive, kept abstract). -/
def rawwire_write (bytes : List Nat) : M Unit := emit (Event.wr bytes)

/-- RawWire `read(count)` (transport primitive): records the read and hands
back the next `count` bytes of the device input stream. -/
def rawwire_read (count : Nat) : M (List Nat) := fun s =>
  if s.fail s.trace.length then (Res.err Err.transport, s)
  else (Res.ok (s.input.take count),
        { s with trace := s.trace ++ [Event.rd count], input := s.input.drop count })

/-- Assignment `self.sda = v`. -/
def setSda (v : Nat) : M Unit := emit (Event.sda v)

/-- Assignment `self.clk = v`. -/
def setClk (v : Nat) : M Unit := emit (Event.clk v)

/-- Assignment `self.AUX[i].value = v`. -/
def setAux (i v : Nat) : M Unit := emit (Event.aux i v)

/-- RawWire `clocks(n)` (transport primitive, kept abstract). -/
def clocks (n : Nat) : M Unit := emit (Event.clocks n)

/-- Python `time.sleep(seconds)`. -/
def sleepSec (seconds : Nat) : M Unit := emit (Event.sleep seconds)

/-- Python `raise ValueError(msg)`. -/
def raiseValueError {α : Type} (msg : String) : M α := fun s =>
  (Res.err (Err.valueError msg), s)

/-- Python `value.to_bytes(n, byteorder='big')`, as the list of `n` bytes,
most significant first. -/
def to_bytes (value n : Nat) : List Nat :=
  (List.range n).map (fun i => value / 256 ^ (n - 1 - i) % 256)

/-- Python `int.from_bytes(bs, byteorder='big')`. -/
def from_bytes (bs : List Nat) : Nat := bs.foldl (fun acc b => acc * 256 + b) 0

/-- PIC18 `_enter_prog` (pic18.py lines 68-72): sda=0, clk=0, AUX[1]=1 (PGM),
AUX[0]=1 (/MCLR). -/
def _enter_prog : M Unit := do
  setSda 0
  setClk 0
  setAux 1 1
  setAux 0 1

/-- PIC18 `_exit_prog` (pic18.py lines 74-79): sda=0, clk=0, AUX[0]=0,
AUX[1]=0. -/
def _exit_prog : M Unit := do
  setSda 0
  setClk 0
  setAux 0 0
  setAux 1 0

/-- PIC18 `send_cmd(cmd, payload)` (pic18.py lines 86-92): the 4-bit command,
then the payload with bytes `payload[1:2]`, `payload[0:1]` when the payload
length is even, or `payload[0:1]` alone when it is odd. -/
def send_cmd (cmd : Nat) (payload : List Nat) : M Unit := do
  write_bits cmd 4
  if payload.length % 2 = 0 then do
    rawwire_write ((payload.drop 1).take 1)
    rawwire_write (payload.take 1)
  else
    rawwire_write (payload.take 1)

/-- PIC18 `nop(repeat)` (pic18.py lines 81-84, default repeat=1): send the
core-instruction NOP `count` times. -/
def nop : Nat → M Unit
  | 0 => pure ()
  | n + 1 => do
    send_cmd 0x00 [0x00, 0x00]
    nop n

/-- PIC18 `set_eeaddr(address)` (pic18.py lines 94-103). -/
def set_eeaddr (address : Nat) : M Unit := do
  let EEADDR := to_bytes address 2
  send_cmd 0x00 (0x0E :: EEADDR.take 1)
  send_cmd 0x00 [0x6E, 0xAA]
  send_cmd 0x00 (0x0E :: (EEADDR.drop 1).take 1)
  send_cmd 0x00 [0x6E, 0xA9]

/-- PIC18 `set_tblptr(address)` (pic18.py lines 105-118). -/
def set_tblptr (address : Nat) : M Unit := do
  let TBLPTR := to_bytes address 3
  send_cmd 0x00 (0x0E :: TBLPTR.take 1)
  send_cmd 0x00 [0x6E, 0xF8]
  send_cmd 0x00 (0x0E :: ((TBLPTR.drop 1).take 1))
  send_cmd 0x00 [0x6E, 0xF7]
  send_cmd 0x00 (0x0E :: ((TBLPTR.drop 2).take 1))
  send_cmd 0x00 [0x6E, 0xF6]

/-- PIC18 `poll_wr` (pic18.py lines 120-129): read EECON1 back through
TABLAT and return bit 1 of the received byte. -/
def poll_wr : M Nat := do
  send_cmd 0x00 [0x50, 0xA6]
  send_cmd 0x00 [0x6E, 0xF5]
  nop 1
  send_cmd 0x02 [0x00]
  let bs ← rawwire_read 1
  pure ((from_bytes bs >>> 1) &&& 1)

/-- Fuel-indexed unfolding of the busy-wait `while self.poll_wr(): continue`. -/
def pollLoopF : Nat → M Unit
  | 0 => pure ()
  | fuel + 1 => do
    let b ← poll_wr
    if b ≠ 0 then pollLoopF fuel else pure ()

/-- The busy-wait `while self.poll_wr(): continue` (pic18.py lines 185-186,
204-205).  Every continuing iteration consumes one byte of the device input
stream (an exhausted stream yields status byte 0, which ends the loop), so
fuel `input.length + 1` never cuts the loop short. -/
def pollWrLoop : M Unit := fun s => pollLoopF (s.input.length + 1) s

/-- One iteration of the EEPROM read loop of `read` (pic18.py lines
142-152), iterated over the offsets `range(0, length)`. -/
def readEepromIter (addr : Nat) : List Nat → M (List Nat)
  | [] => pure []
  | offset :: rest => do
    set_eeaddr (addr + offset)
    send_cmd 0x00 [0x80, 0xA6]
    send_cmd 0x00 [0x6E, 0xF5]
    send_cmd 0x00 [0x50, 0xA8]
    nop 1
    let b ← rawwire_read 1
    let bs ← readEepromIter addr rest
    pure (b ++ bs)

/-- The program-memory read loop of `read` (pic18.py lines 155-158): `n`
table-read-post-increment instructions, one received byte after each.  The
identical loop bodies of `get_cfg_ID` (lines 242-244) and `get_dev_ID`
(lines 274-276) are also instances of this definition. -/
def readProgIter : Nat → M (List Nat)
  | 0 => pure []
  | n + 1 => do
    send_cmd 0x09 [0x00]
    let b ← rawwire_read 1
    let bs ← readProgIter n
    pure (b ++ bs)

/-- PIC18 `read(addr, length, eeprom)` (pic18.py lines 131-161). -/
def read (addr length : Nat) (eeprom : Bool) : M (List Nat) :=
  if length = 0 then
    raiseValueError "Length must be at least one"
  else
    _enter_prog >>= fun _ =>
    (if eeprom then do
        send_cmd 0x00 [0x9E, 0xA6]
        send_cmd 0x00 [0x9C, 0xA6]
        readEepromIter addr (List.range length)
      else do
        set_tblptr addr
        readProgIter length) >>= fun data =>
    _exit_prog >>= fun _ =>
    pure data

/-- One iteration of the EEPROM write loop of `write` (pic18.py lines
179-186), iterated over the byte indices `range(0, length)`. -/
def writeEepromIter (data : List Nat) : List Nat → M Unit
  | [] => pure ()
  | d :: rest => do
    send_cmd 0x0E ((data.drop d).take 1)
    send_cmd 0x00 [0x84, 0xA6]
    nop 2
    pollWrLoop
    writeEepromIter data rest

/-- The (opcode, payload) pairs handed to `send_cmd` by the payload-chunk
phase of `write` (pic18.py lines 206-212): when `len(data) == 2` a single
`send_cmd(0x0F, data)`; otherwise `send_cmd(0x0D, data[d:d+2][::-1])` for
`d in range(0, length-2, 2)` followed by `send_cmd(0x0F, data[d+2:][::-1])`
where `d` keeps its last loop value, so that for even length `d + 2 =
length - 2` and `data[d+2:]` is the final two bytes. -/
def chunkCmds (data : List Nat) : List (Nat × List Nat) :=
  if data.length = 2 then
    [(0x0F, data)]
  else
    ((List.range ((data.length - 2 + 1) / 2)).map
      (fun i => (0x0D, ((data.drop (2 * i)).take 2).reverse)))
    ++ [(0x0F, (data.drop (data.length - 2)).reverse)]

/-- Hand a list of (opcode, payload) pairs to `send_cmd` in order. -/
def sendCmds : List (Nat × List Nat) → M Unit
  | [] => pure ()
  | c :: rest => do
    send_cmd c.1 c.2
    sendCmds rest

/-- PIC18 `write(addr, data, eeprom, erase)` (pic18.py lines 163-224). -/
def write (addr : Nat) (data : List Nat) (eeprom erase : Bool) : M Unit :=
  if data.length < 2 then
    raiseValueError "Data should be at least two byte"
  else if data.length % 2 = 1 then
    raiseValueError "Data should be a multiple of two bytes"
  else
    _enter_prog >>= fun _ =>
    (if eeprom then do
        send_cmd 0x00 [0x9E, 0xA6]
        send_cmd 0x00 [0x9C, 0xA6]
        set_eeaddr addr
        send_cmd 0x00 [0x84, 0xA6]
        writeEepromIter data (List.range data.length)
      else
        (do send_cmd 0x00 [0x8E, 0xA6]
            send_cmd 0x00 [0x9C, 0xA6]
            set_tblptr addr
            send_cmd 0x00 [0x84, 0xA6]
            send_cmd 0x00 [0x88, 0xA6]) >>= fun _ =>
        (if erase then do
            send_cmd 0x00 [0x88, 0xA6]
            send_cmd 0x00 [0x82, 0xA6]
            nop 2
            pollWrLoop
          else
            pure ()) >>= fun _ => do
        sendCmds (chunkCmds data)
        setSda 0
        clocks 3
        setClk 1
        sleepSec 1) >>= fun _ =>
    (do setClk 0
        nop 2
        send_cmd 0x00 [0x94, 0xA6]) >>= fun _ =>
    _exit_prog

/-- PIC18 `erase_panel(panel)` (pic18.py lines 226-234); `panel[0:1]*2`
duplicates the first byte of the panel identifier, `panel[1:2]*2` the
second. -/
def erase_panel (panel : List Nat) : M Unit := do
  _enter_prog
  set_tblptr 0x3C0005
  send_cmd 0x0C (panel.take 1 ++ panel.take 1)
  set_tblptr 0x3C0004
  send_cmd 0x0C ((panel.drop 1).take 1 ++ (panel.drop 1).take 1)
  send_cmd 0x00 [0x00, 0x00]
  send_cmd 0x00 [0x00, 0x00]
  _exit_prog

/-- Python `struct.unpack` with `n` copies of format `H` (16-bit words,
little-endian byte order on the supported hosts): raises `struct.error`
unless the buffer holds exactly `2 * n` bytes.  Pure on the transport
state. -/
def unpackWords (n : Nat) (bs : List Nat) : M (List Nat) := fun s =>
  (if bs.length = 2 * n then
    Res.ok ((List.range n).map (fun i => bs.getD (2 * i) 0 + 256 * bs.getD (2 * i + 1) 0))
  else Res.err Err.structError, s)

/-- PIC18 `get_cfg_ID(address)` (pic18.py lines 236-250), returning the
seven unpacked configuration words instead of printing them. -/
def get_cfg_ID (address : Option Nat) : M (List Nat) :=
  _enter_prog >>= fun _ =>
  (do let addr := address.getD 0x300000
      set_tblptr addr
      readProgIter 14) >>= fun data =>
  _exit_prog >>= fun _ =>
  unpackWords 7 data >>= fun CONFIG =>
  pure CONFIG

/-- One iteration of the `get_loc_ID` loop (pic18.py lines 257-260): re-set
the table pointer to the same `address`, issue a plain table-read (opcode
0x08), receive one byte. -/
def locIDIter (address : Nat) : Nat → M (List Nat)
  | 0 => pure []
  | n + 1 => do
    set_tblptr address
    send_cmd 0x08 [0x00]
    let b ← rawwire_read 1
    let bs ← locIDIter address n
    pure (b ++ bs)

/-- PIC18 `get_loc_ID(address)` (pic18.py lines 252-266): the loop
`for _ in range(address, address+8)` runs exactly 8 iterations; the four
unpacked ID words are returned instead of printed. -/
def get_loc_ID (address : Option Nat) : M (List Nat) :=
  _enter_prog >>= fun _ =>
  (do let addr := address.getD 0x200000
      locIDIter addr 8) >>= fun data =>
  _exit_prog >>= fun _ =>
  unpackWords 4 data >>= fun ID =>
  pure ID

/-- PIC18 `get_dev_ID(address)` (pic18.py lines 268-281), returning the two
raw device-ID bytes instead of printing them. -/
def get_dev_ID (address : Option Nat) : M (List Nat) :=
  _enter_prog >>= fun _ =>
  (do let addr := address.getD 0x3FFFFE
      set_tblptr addr
      readProgIter 2) >>= fun data =>
  _exit_prog >>= fun _ =>
  pure data

/-- Events of one `send_cmd(cmd, payload)` call. -/
def sendCmdEvents (cmd : Nat) (payload : List Nat) : List Event :=
  Event.writeBits cmd 4 ::
    (if payload.length % 2 = 0 then
      [Event.wr ((payload.drop 1).take 1), Event.wr (payload.take 1)]
    else
      [Event.wr (payload.take 1)])

/-- Events of `nop count`. -/
def nopEvents (count : Nat) : List Event :=
  (List.replicate count (sendCmdEvents 0x00 [0x00, 0x00])).flatten

/-- Events of the programming-mode entry sequence `_enter_prog`. -/
def enterEvents : List Event :=
  [Event.sda 0, Event.clk 0, Event.aux 1 1, Event.aux 0 1]

/-- Events of the programming-mode exit sequence `_exit_prog`. -/
def exitEvents : List Event :=
  [Event.sda 0, Event.clk 0, Event.aux 0 0, Event.aux 1 0]

/-- Events of `set_eeaddr address`. -/
def setEeaddrEvents (address : Nat) : List Event :=
  sendCmdEvents 0x00 (0x0E :: (to_bytes address 2).take 1)
  ++ sendCmdEvents 0x00 [0x6E, 0xAA]
  ++ sendCmdEvents 0x00 (0x0E :: ((to_bytes address 2).drop 1).take 1)
  ++ sendCmdEvents 0x00 [0x6E, 0xA9]

/-- Events of `set_tblptr address`. -/
def setTblptrEvents (address : Nat) : List Event :=
  sendCmdEvents 0x00 (0x0E :: (to_bytes address 3).take 1)
  ++ sendCmdEvents 0x00 [0x6E, 0xF8]
  ++ sendCmdEvents 0x00 (0x0E :: ((to_bytes address 3).drop 1).take 1)
  ++ sendCmdEvents 0x00 [0x6E, 0xF7]
  ++ sendCmdEvents 0x00 (0x0E :: ((to_bytes address 3).drop 2).take 1)
  ++ sendCmdEvents 0x00 [0x6E, 0xF6]

/-- Events of one iteration of the EEPROM read loop, as the code performs
it: set the EEPROM address, set the read-request bit, the two data-movement
instructions, ONE no-op, one byte received. -/
def eepromReadIterEvents (addr offset : Nat) : List Event :=
  setEeaddrEvents (addr + offset)
  ++ sendCmdEvents 0x00 [0x80, 0xA6]
  ++ sendCmdEvents 0x00 [0x6E, 0xF5]
  ++ sendCmdEvents 0x00 [0x50, 0xA8]
  ++ nopEvents 1
  ++ [Event.rd 1]

/-- Events of one iteration of the EEPROM read loop as claim C4 states it,
with TWO no-ops before the received byte. -/
def eepromReadIterEventsClaimed (addr offset : Nat) : List Event :=
  setEeaddrEvents (addr + offset)
  ++ sendCmdEvents 0x00 [0x80, 0xA6]
  ++ sendCmdEvents 0x00 [0x6E, 0xF5]
  ++ sendCmdEvents 0x00 [0x50, 0xA8]
  ++ nopEvents 2
  ++ [Event.rd 1]

/-- Events of one iteration of the program-memory read loop. -/
def progReadIterEvents : List Event :=
  sendCmdEvents 0x09 [0x00] ++ [Event.rd 1]

/-- Events of one iteration of the `get_loc_ID` loop. -/
def locIDIterEvents (address : Nat) : List Event :=
  setTblptrEvents address ++ sendCmdEvents 0x08 [0x00] ++ [Event.rd 1]

/-- Value a trace leaves on auxiliary line `i` (0 before any assignment). -/
def lineAfter (i : Nat) (tr : List Event) : Nat :=
  tr.foldl (fun v e =>
    match e with
    | Event.aux j x => if j = i then x else v
    | _ => v) 0

/-- What a transport call puts on the wire: a bit field or whole bytes. -/
inductive Wire where
  | bits (value : Nat) (width : Nat)
  | byte (b : Nat)
  deriving DecidableEq

/-- Modelled from the spec: the raw-wire transport implementation
(`rawwire.py`) is not under src/; spec section 6 fixes that
`transmitBits(value, bitCount)` transmits the low `bitCount` bits of
`value` as one bit field, that byte writes transmit their bytes, and that
line control, clock pulses, reads and delays put nothing on the outgoing
data wire. -/
def eventWire : Event → List Wire
  | Event.writeBits v n => [Wire.bits (v % 2 ^ n) n]
  | Event.wr bs => bs.map Wire.byte
  | _ => []

/-- The outgoing wire stream of a whole trace. -/
def wireOf (tr : List Event) : List Wire := (tr.map eventWire).flatten

/-- Claim C3's property of the payload-chunk phase of `write`: every 2-byte
chunk of `data` (chunk `i` covering `data[2i]`, `data[2i+1]`) is handed to
`send_cmd` with its two bytes in reversed order, the final chunk under
opcode 0x0F and every earlier chunk under opcode 0x0D. -/
def handedChunksReversed (data : List Nat) : Prop :=
  ∀ i < data.length / 2,
    (chunkCmds data)[i]? =
      some (if i + 1 = data.length / 2 then 0x0F else 0x0D,
            ((data.drop (2 * i)).take 2).reverse)

/-! Run calculus: how each operation acts on a concrete transport state. -/

theorem run_pure {α : Type} (a : α) (s : St) : (pure a : M α) s = (Res.ok a, s) := rfl

theorem run_bind {α β : Type} (x : M α) (f : α → M β) (s : St) :
    (x >>= f) s =
      match x s with
      | (Res.ok a, s1) => f a s1
      | (Res.err e, s1) => (Res.err e, s1) := rfl

@[simp] theorem noFail_app (n : Nat) : noFail n = false := rfl

theorem emit_run (e : Event) (s : St) (h : s.fail = noFail) :
    emit e s = (Res.ok (), { s with trace := s.trace ++ [e] }) := by
  simp [emit, h]

theorem rawwire_read_run (n : Nat) (s : St) (h : s.fail = noFail) :
    rawwire_read n s =
      (Res.ok (s.input.take n),
       { s with trace := s.trace ++ [Event.rd n], input := s.input.drop n }) := by
  simp [rawwire_read, h]

theorem send_cmd_run (cmd : Nat) (payload : List Nat) (s : St) (h : s.fail = noFail) :
    send_cmd cmd payload s =
      (Res.ok (), { s with trace := s.trace ++ sendCmdEvents cmd payload }) := by
  by_cases hp : payload.length % 2 = 0 <;>
    simp [send_cmd, sendCmdEvents, run_bind, write_bits, rawwire_write, emit_run, h, hp]

theorem nop_run (count : Nat) :
    ∀ s : St, s.fail = noFail →
      nop count s = (Res.ok (), { s with trace := s.trace ++ nopEvents count }) := by
  induction count with
  | zero => intro s h; simp [nop, nopEvents, run_pure]
  | succ n ih =>
    intro s h
    have h1 : ({ s with trace := s.trace ++ sendCmdEvents 0x00 [0x00, 0x00] } : St).fail
        = noFail := h
    simp [nop, run_bind, send_cmd_run _ _ _ h, ih _ h1, nopEvents, List.replicate_succ]

theorem enter_prog_run (s : St) (h : s.fail = noFail) :
    _enter_prog s = (Res.ok (), { s with trace := s.trace ++ enterEvents }) := by
  simp [_enter_prog, enterEvents, run_bind, setSda, setClk, setAux, emit_run, h]

theorem exit_prog_run (s : St) (h : s.fail = noFail) :
    _exit_prog s = (Res.ok (), { s with trace := s.trace ++ exitEvents }) := by
  simp [_exit_prog, exitEvents, run_bind, setSda, setClk, setAux, emit_run, h]

theorem set_eeaddr_run (address : Nat) (s : St) (h : s.fail = noFail) :
    set_eeaddr address s =
      (Res.ok (), { s with trace := s.trace ++ setEeaddrEvents address }) := by
  simp [set_eeaddr, setEeaddrEvents, run_bind, send_cmd_run, h]

theorem set_tblptr_run (address : Nat) (s : St) (h : s.fail = noFail) :
    set_tblptr address s =
      (Res.ok (), { s with trace := s.trace ++ setTblptrEvents address }) := by
  simp [set_tblptr, setTblptrEvents, run_bind, send_cmd_run, h]

theorem readProgIter_run (n : Nat) :
    ∀ s : St, s.fail = noFail →
      readProgIter n s =
        (Res.ok (s.input.take n),
         { s with trace := s.trace ++ (List.replicate n progReadIterEvents).flatten,
                  input := s.input.drop n }) := by
  induction n with
  | zero => intro s h; simp [readProgIter, run_pure]
  | succ n ih =>
    intro s h
    have htake : s.input.take 1 ++ s.input.tail.take n = s.input.take (n + 1) := by
      rcases s.input with _ | ⟨b, rest⟩ <;> simp
    have hdrop : (s.input.drop 1).drop n = s.input.drop (n + 1) := by
      rcases s.input with _ | ⟨b, rest⟩ <;> simp
    simp [readProgIter, run_bind, send_cmd_run, rawwire_read_run, run_pure, ih, h,
      progReadIterEvents, List.replicate_succ, htake, hdrop]

theorem readEepromIter_run (addr : Nat) (offsets : List Nat) :
    ∀ s : St, s.fail = noFail →
      readEepromIter addr offsets s =
        (Res.ok (s.input.take offsets.length),
         { s with trace := s.trace ++ (offsets.map (eepromReadIterEvents addr)).flatten,
                  input := s.input.drop offsets.length }) := by
  induction offsets with
  | nil => intro s h; simp [readEepromIter, run_pure]
  | cons o rest ih =>
    intro s h
    have htake : s.input.take 1 ++ s.input.tail.take rest.length
        = s.input.take (rest.length + 1) := by
      rcases s.input with _ | ⟨b, bs⟩ <;> simp
    have hdrop : (s.input.drop 1).drop rest.length = s.input.drop (rest.length + 1) := by
      rcases s.input with _ | ⟨b, bs⟩ <;> simp
    simp [readEepromIter, run_bind, set_eeaddr_run, send_cmd_run, nop_run,
      rawwire_read_run, run_pure, ih, h, eepromReadIterEvents, htake, hdrop]

theorem locIDIter_run (address : Nat) (n : Nat) :
    ∀ s : St, s.fail = noFail →
      locIDIter address n s =
        (Res.ok (s.input.take n),
         { s with trace := s.trace ++ (List.replicate n (locIDIterEvents address)).flatten,
                  input := s.input.drop n }) := by
  induction n with
  | zero => intro s h; simp [locIDIter, run_pure]
  | succ n ih =>
    intro s h
    have htake : s.input.take 1 ++ s.input.tail.take n = s.input.take (n + 1) := by
      rcases s.input with _ | ⟨b, bs⟩ <;> simp
    have hdrop : (s.input.drop 1).drop n = s.input.drop (n + 1) := by
      rcases s.input with _ | ⟨b, bs⟩ <;> simp
    simp [locIDIter, run_bind, set_tblptr_run, send_cmd_run, rawwire_read_run, run_pure,
      ih, h, locIDIterEvents, List.replicate_succ, htake, hdrop]

theorem sendCmds_run (cs : List (Nat × List Nat)) :
    ∀ s : St, s.fail = noFail →
      sendCmds cs s =
        (Res.ok (),
         { s with trace := s.trace ++ (cs.map (fun c => sendCmdEvents c.1 c.2)).flatten }) := by
  induction cs with
  | nil => intro s h; simp [sendCmds, run_pure]
  | cons c rest ih => intro s h; simp [sendCmds, run_bind, send_cmd_run, run_pure, ih, h]

theorem read_prog_run (addr length : Nat) (s : St) (h : s.fail = noFail)
    (hl : length ≠ 0) :
    read addr length false s =
      (Res.ok (s.input.take length),
       { s with trace := s.trace ++ enterEvents ++ setTblptrEvents addr
                  ++ (List.replicate length progReadIterEvents).flatten ++ exitEvents,
                input := s.input.drop length }) := by
  simp [read, hl, run_bind, enter_prog_run, set_tblptr_run, readProgIter_run,
    exit_prog_run, run_pure, h]

theorem read_eeprom_run (addr length : Nat) (s : St) (h : s.fail = noFail)
    (hl : length ≠ 0) :
    read addr length true s =
      (Res.ok (s.input.take length),
       { s with trace := s.trace ++ enterEvents
                  ++ sendCmdEvents 0x00 [0x9E, 0xA6] ++ sendCmdEvents 0x00 [0x9C, 0xA6]
                  ++ ((List.range length).map (eepromReadIterEvents addr)).flatten
                  ++ exitEvents,
                input := s.input.drop length }) := by
  simp [read, hl, run_bind, enter_prog_run, send_cmd_run, readEepromIter_run,
    exit_prog_run, run_pure, h]

theorem erase_panel_run (p0 p1 : Nat) (s : St) (h : s.fail = noFail) :
    erase_panel [p0, p1] s =
      (Res.ok (),
       { s with trace := s.trace ++ enterEvents
                  ++ setTblptrEvents 0x3C0005 ++ sendCmdEvents 0x0C [p0, p0]
                  ++ setTblptrEvents 0x3C0004 ++ sendCmdEvents 0x0C [p1, p1]
                  ++ sendCmdEvents 0x00 [0x00, 0x00] ++ sendCmdEvents 0x00 [0x00, 0x00]
                  ++ exitEvents }) := by
  simp [erase_panel, run_bind, enter_prog_run, set_tblptr_run, send_cmd_run,
    exit_prog_run, run_pure, h]

theorem get_loc_ID_run (s : St) (h : s.fail = noFail) (hlen : 8 ≤ s.input.length) :
    get_loc_ID none s =
      (Res.ok ((List.range 4).map (fun i =>
          (s.input.take 8).getD (2 * i) 0 + 256 * (s.input.take 8).getD (2 * i + 1) 0)),
       { s with trace := s.trace ++ enterEvents
                  ++ (List.replicate 8 (locIDIterEvents 0x200000)).flatten ++ exitEvents,
                input := s.input.drop 8 }) := by
  simp [get_loc_ID, run_bind, enter_prog_run, locIDIter_run, exit_prog_run,
    unpackWords, run_pure, h, List.length_take, Nat.min_eq_left hlen]

/-! Inversion lemmas: what a successful run implies, for an arbitrary
failure oracle.  Used for the scoped-acquisition claim C2. -/

theorem bind_ok_inv {α β : Type} {x : M α} {f : α → M β} {s s' : St} {b : β}
    (h : (x >>= f) s = (Res.ok b, s')) :
    ∃ a s1, x s = (Res.ok a, s1) ∧ f a s1 = (Res.ok b, s') := by
  rcases hx : x s with ⟨r, s1⟩
  cases r with
  | ok a =>
    refine ⟨a, s1, rfl, ?_⟩
    rw [run_bind, hx] at h
    exact h
  | err e =>
    rw [run_bind, hx] at h
    simp at h

theorem emit_ok_inv {e : Event} {s s' : St} {a : Unit}
    (h : emit e s = (Res.ok a, s')) : s'.trace = s.trace ++ [e] := by
  unfold emit at h
  split at h
  · simp at h
  · simp only [Prod.mk.injEq] at h
    rw [← h.2]

theorem exit_prog_ok {s s' : St} {a : Unit} (h : _exit_prog s = (Res.ok a, s')) :
    s'.trace = s.trace ++ exitEvents := by
  unfold _exit_prog at h
  obtain ⟨a1, s1, h1, h⟩ := bind_ok_inv h
  obtain ⟨a2, s2, h2, h⟩ := bind_ok_inv h
  obtain ⟨a3, s3, h3, h⟩ := bind_ok_inv h
  rw [emit_ok_inv h, emit_ok_inv h3, emit_ok_inv h2, emit_ok_inv h1]
  simp [exitEvents]

theorem exit_then_run {β : Type} (k : M β) (hk : ∀ t : St, (k t).2 = t)
    {s s' : St} {v : β} (h : (_exit_prog >>= fun _ => k) s = (Res.ok v, s')) :
    exitEvents <:+ s'.trace := by
  obtain ⟨a, s1, h1, h2⟩ := bind_ok_inv h
  have hs : s' = s1 := by
    have h3 := congrArg Prod.snd h2
    rw [hk s1] at h3
    exact h3.symm
  rw [hs, exit_prog_ok h1]
  exact List.suffix_append _ _

theorem read_ok_exit {addr length : Nat} {eeprom : Bool} {s s' : St} {v : List Nat}
    (h : read addr length eeprom s = (Res.ok v, s')) : exitEvents <:+ s'.trace := by
  unfold read at h
  by_cases h0 : length = 0
  · rw [if_pos h0] at h
    simp [raiseValueError] at h
  · rw [if_neg h0] at h
    obtain ⟨a1, s1, -, h⟩ := bind_ok_inv h
    obtain ⟨data, s2, -, h⟩ := bind_ok_inv h
    exact exit_then_run _ (fun t => rfl) h

theorem write_ok_exit {addr : Nat} {data : List Nat} {eeprom erase : Bool} {s s' : St}
    {v : Unit} (h : write addr data eeprom erase s = (Res.ok v, s')) :
    exitEvents <:+ s'.trace := by
  unfold write at h
  by_cases h0 : data.length < 2
  · rw [if_pos h0] at h
    simp [raiseValueError] at h
  · rw [if_neg h0] at h
    by_cases h1 : data.length % 2 = 1
    · rw [if_pos h1] at h
      simp [raiseValueError] at h
    · rw [if_neg h1] at h
      obtain ⟨a1, s1, -, h⟩ := bind_ok_inv h
      obtain ⟨a2, s2, -, h⟩ := bind_ok_inv h
      obtain ⟨a3, s3, -, h⟩ := bind_ok_inv h
      rw [exit_prog_ok h]
      exact List.suffix_append _ _

theorem erase_panel_ok_exit {panel : List Nat} {s s' : St} {v : Unit}
    (h : erase_panel panel s = (Res.ok v, s')) : exitEvents <:+ s'.trace := by
  unfold erase_panel at h
  obtain ⟨a1, s1, -, h⟩ := bind_ok_inv h
  obtain ⟨a2, s2, -, h⟩ := bind_ok_inv h
  obtain ⟨a3, s3, -, h⟩ := bind_ok_inv h
  obtain ⟨a4, s4, -, h⟩ := bind_ok_inv h
  obtain ⟨a5, s5, -, h⟩ := bind_ok_inv h
  obtain ⟨a6, s6, -, h⟩ := bind_ok_inv h
  obtain ⟨a7, s7, -, h⟩ := bind_ok_inv h
  rw [exit_prog_ok h]
  exact List.suffix_append _ _

theorem unpack_pure_state (n : Nat) (bs : List Nat) (t : St) :
    ((unpackWords n bs >>= fun w => pure w) t).2 = t := by
  by_cases hc : bs.length = 2 * n <;> simp [run_bind, unpackWords, hc, run_pure]

theorem get_cfg_ID_ok_exit {address : Option Nat} {s s' : St} {v : List Nat}
    (h : get_cfg_ID address s = (Res.ok v, s')) : exitEvents <:+ s'.trace := by
  unfold get_cfg_ID at h
  obtain ⟨a1, s1, -, h⟩ := bind_ok_inv h
  obtain ⟨data, s2, -, h⟩ := bind_ok_inv h
  exact exit_then_run _ (unpack_pure_state 7 data) h

theorem get_loc_ID_ok_exit {address : Option Nat} {s s' : St} {v : List Nat}
    (h : get_loc_ID address s = (Res.ok v, s')) : exitEvents <:+ s'.trace := by
  unfold get_loc_ID at h
  obtain ⟨a1, s1, -, h⟩ := bind_ok_inv h
  obtain ⟨data, s2, -, h⟩ := bind_ok_inv h
  exact exit_then_run _ (unpack_pure_state 4 data) h

theorem get_dev_ID_ok_exit {address : Option Nat} {s s' : St} {v : List Nat}
    (h : get_dev_ID address s = (Res.ok v, s')) : exitEvents <:+ s'.trace := by
  unfold get_dev_ID at h
  obtain ⟨a1, s1, -, h⟩ := bind_ok_inv h
  obtain ⟨data, s2, -, h⟩ := bind_ok_inv h
  exact exit_then_run _ (fun t => rfl) h

/-! Claim theorems. -/

/-- Claim C1: every `send_cmd(cmd, payload)` call transmits the low 4 bits
of `cmd` first as a 4-bit field; then, for an even-length payload (0 or 2
bytes), payload byte 1 followed by payload byte 0, and for a 1-byte payload
the single byte as-is; nothing else is transmitted. -/
theorem send_cmd_wire_order (cmd a b : Nat) (s : St) (h : s.fail = noFail) :
    wireOf ((send_cmd cmd [a, b] s).2.trace)
      = wireOf s.trace ++ [Wire.bits (cmd % 16) 4, Wire.byte b, Wire.byte a]
    ∧ wireOf ((send_cmd cmd [a] s).2.trace)
      = wireOf s.trace ++ [Wire.bits (cmd % 16) 4, Wire.byte a]
    ∧ wireOf ((send_cmd cmd [] s).2.trace)
      = wireOf s.trace ++ [Wire.bits (cmd % 16) 4] := by
  have h16 : (2 : Nat) ^ 4 = 16 := by norm_num
  refine ⟨?_, ?_, ?_⟩ <;>
    simp [send_cmd_run _ _ _ h, wireOf, sendCmdEvents, eventWire, h16]

/-- Witness for C1 at a concrete command and payload. -/
theorem send_cmd_wire_order_witness :
    wireOf ((send_cmd 0x2A [0x11, 0x22] ⟨noFail, [], []⟩).2.trace)
      = [Wire.bits 10 4, Wire.byte 0x22, Wire.byte 0x11] := by
  have h := (send_cmd_wire_order 0x2A 0x11 0x22 ⟨noFail, [], []⟩ rfl).1
  simpa [wireOf] using h

/-- Claim C2 counterexample: with a transport that fails at the fifth
transport call (the first instruction after the entry sequence),
`read(0, 1, eeprom=False)` raises a transport failure without having
emitted any exit-sequence event, and leaves both auxiliary lines (PGM and
/MCLR) asserted, i.e. the session remains in the Programming state. -/
theorem read_failure_skips_exit :
    (read 0 1 false ⟨failAt 4, [], []⟩).1 = Res.err Err.transport
    ∧ Event.aux 1 0 ∉ (read 0 1 false ⟨failAt 4, [], []⟩).2.trace
    ∧ Event.aux 0 0 ∉ (read 0 1 false ⟨failAt 4, [], []⟩).2.trace
    ∧ lineAfter 0 ((read 0 1 false ⟨failAt 4, [], []⟩).2.trace) = 1
    ∧ lineAfter 1 ((read 0 1 false ⟨failAt 4, [], []⟩).2.trace) = 1 := by
  decide

/-- Claim C2 (amended): every public operation that returns normally has
executed the complete exit sequence as the final transport events of its
run; on a path where a transport failure is raised after entry the exit
sequence is not executed (see the counterexample). -/
theorem public_ops_exit_on_ok :
    (∀ (addr length : Nat) (eeprom : Bool) (s : St) (v : List Nat) (s' : St),
        read addr length eeprom s = (Res.ok v, s') → exitEvents <:+ s'.trace)
    ∧ (∀ (addr : Nat) (data : List Nat) (eeprom erase : Bool) (s : St) (v : Unit) (s' : St),
        write addr data eeprom erase s = (Res.ok v, s') → exitEvents <:+ s'.trace)
    ∧ (∀ (panel : List Nat) (s : St) (v : Unit) (s' : St),
        erase_panel panel s = (Res.ok v, s') → exitEvents <:+ s'.trace)
    ∧ (∀ (address : Option Nat) (s : St) (v : List Nat) (s' : St),
        get_cfg_ID address s = (Res.ok v, s') → exitEvents <:+ s'.trace)
    ∧ (∀ (address : Option Nat) (s : St) (v : List Nat) (s' : St),
        get_loc_ID address s = (Res.ok v, s') → exitEvents <:+ s'.trace)
    ∧ (∀ (address : Option Nat) (s : St) (v : List Nat) (s' : St),
        get_dev_ID address s = (Res.ok v, s') → exitEvents <:+ s'.trace) :=
  ⟨fun _ _ _ _ _ _ h => read_ok_exit h,
   fun _ _ _ _ _ _ _ h => write_ok_exit h,
   fun _ _ _ _ h => erase_panel_ok_exit h,
   fun _ _ _ _ h => get_cfg_ID_ok_exit h,
   fun _ _ _ _ h => get_loc_ID_ok_exit h,
   fun _ _ _ _ h => get_dev_ID_ok_exit h⟩

/-- Witness for C2 (amended) on a concrete fault-free run of `read`. -/
theorem public_ops_exit_on_ok_witness :
    exitEvents <:+ (enterEvents ++ setTblptrEvents 0
      ++ (List.replicate 1 progReadIterEvents).flatten ++ exitEvents) :=
  public_ops_exit_on_ok.1 0 1 false ⟨noFail, [7], []⟩ [7]
    ⟨noFail, [], enterEvents ++ setTblptrEvents 0
      ++ (List.replicate 1 progReadIterEvents).flatten ++ exitEvents⟩
    (by rw [read_prog_run 0 1 ⟨noFail, [7], []⟩ rfl (by decide)]; exact rfl)

/-- Claim C5: `write` called with data shorter than 2 bytes or of odd
length raises `ValueError` immediately, with the transport state untouched
(no line driven, nothing transmitted, no programming-mode entry). -/
theorem write_invalid_length_valueError (addr : Nat) (data : List Nat)
    (eeprom erase : Bool) (s : St)
    (h : data.length < 2 ∨ data.length % 2 = 1) :
    ∃ msg, write addr data eeprom erase s = (Res.err (Err.valueError msg), s) := by
  rcases h with h | h
  · exact ⟨"Data should be at least two byte", by rw [write, if_pos h]; exact rfl⟩
  · by_cases h2 : data.length < 2
    · exact ⟨"Data should be at least two byte", by rw [write, if_pos h2]; exact rfl⟩
    · exact ⟨"Data should be a multiple of two bytes",
        by rw [write, if_neg h2, if_pos h]; exact rfl⟩

/-- Witness for C5 at a one-byte payload. -/
theorem write_invalid_length_valueError_witness :
    ∃ msg, write 0 [1] false false ⟨noFail, [], []⟩
      = (Res.err (Err.valueError msg), ⟨noFail, [], []⟩) :=
  write_invalid_length_valueError 0 [1] false false ⟨noFail, [], []⟩ (Or.inl (by decide))

/-- Claim C6: `read` called with length 0 raises `ValueError` immediately,
with the transport state untouched: no wire activity and no
programming-mode entry, whatever the address and the eeprom flag. -/
theorem read_zero_length_valueError (addr : Nat) (eeprom : Bool) (s : St) :
    read addr 0 eeprom s = (Res.err (Err.valueError "Length must be at least one"), s) := by
  rw [read, if_pos rfl]
  exact rfl

/-- Claim C10: on the EEPROM path of `write` the erase flag is never
consulted: the entire run (result and final transport state) is identical
for erase=True and erase=False, for every address, payload and transport
state. -/
theorem write_eeprom_ignores_erase (addr : Nat) (data : List Nat) (s : St) :
    write addr data true true s = write addr data true false s := rfl

/-- Claim C3 counterexample: for the two-byte payload [1, 2] the single
chunk is handed to the command encoder as `send_cmd(0x0F, data)` in its
original order, not reversed. -/
theorem chunkCmds_len_two_not_reversed : ¬ handedChunksReversed [1, 2] := by
  unfold handedChunksReversed
  decide

/-- Claim C3 (amended): for every even payload of length at least 4, every
2-byte chunk — the intermediate ones under opcode 0x0D and the final one
under opcode 0x0F — is handed to the command encoder with its two bytes
reversed; for a payload of length exactly 2 the single chunk is handed
under opcode 0x0F in its original order. -/
theorem write_chunks_handed :
    (∀ data : List Nat, data.length % 2 = 0 → 4 ≤ data.length →
      handedChunksReversed data)
    ∧ (∀ data : List Nat, data.length = 2 → chunkCmds data = [(0x0F, data)]) := by
  constructor
  · intro data he h4 i hi
    have hne : data.length ≠ 2 := by omega
    rw [chunkCmds, if_neg hne]
    have hk : (data.length - 2 + 1) / 2 = data.length / 2 - 1 := by omega
    have hlen : ((List.range ((data.length - 2 + 1) / 2)).map
        (fun i => ((0x0D : Nat), ((data.drop (2 * i)).take 2).reverse))).length
        = data.length / 2 - 1 := by
      simp [hk]
    by_cases hik : i < data.length / 2 - 1
    · rw [List.getElem?_append, if_pos (by rw [hlen]; exact hik)]
      rw [List.getElem?_map]
      simp only [List.getElem?_range, hk, hik, if_pos]
      rw [if_neg (by omega)]
      rfl
    · have hieq : i = data.length / 2 - 1 := by omega
      rw [List.getElem?_append, if_neg (by rw [hlen]; omega)]
      rw [hlen, hieq]
      simp only [Nat.sub_self, List.getElem?_cons_zero]
      rw [if_pos (by omega)]
      have h2i : 2 * (data.length / 2 - 1) = data.length - 2 := by omega
      rw [h2i, List.take_of_length_le (by simp; omega)]
  · intro data h2
    rw [chunkCmds, if_pos h2]

/-- Witness for C3 (amended) at a 4-byte and a 2-byte payload. -/
theorem write_chunks_handed_witness :
    handedChunksReversed [1, 2, 3, 4] ∧ chunkCmds [5, 6] = [(0x0F, [5, 6])] :=
  ⟨write_chunks_handed.1 [1, 2, 3, 4] (by decide) (by decide),
   write_chunks_handed.2 [5, 6] (by decide)⟩

/-- Claim C4 counterexample: `read(0, 1, eeprom=True)` on a fault-free
transport does not produce the claimed per-iteration sequence with TWO
no-ops before the read-back; the code issues a single `nop()`. -/
theorem read_eeprom_two_nops_cex :
    (read 0 1 true ⟨noFail, [0xAB], []⟩).2.trace
      ≠ enterEvents ++ sendCmdEvents 0x00 [0x9E, 0xA6] ++ sendCmdEvents 0x00 [0x9C, 0xA6]
        ++ eepromReadIterEventsClaimed 0 0 ++ exitEvents := by
  rw [read_eeprom_run 0 1 ⟨noFail, [0xAB], []⟩ rfl (by decide)]
  decide

/-- Claim C4 (amended): `read(addr, length, eeprom=True)` with length at
least 1 clears EEPGD and CFGS once, then for each of the `length` offsets
performs in order: set the EEPROM address to addr+offset, set the
read-request bit, the two data-movement instructions, ONE no-op, and one
byte read back; the accumulated bytes are returned. -/
theorem read_eeprom_iteration_order (addr length : Nat) (s : St)
    (h : s.fail = noFail) (hl : length ≠ 0) :
    read addr length true s =
      (Res.ok (s.input.take length),
       { s with trace := s.trace ++ enterEvents
                  ++ sendCmdEvents 0x00 [0x9E, 0xA6] ++ sendCmdEvents 0x00 [0x9C, 0xA6]
                  ++ ((List.range length).map (eepromReadIterEvents addr)).flatten
                  ++ exitEvents,
                input := s.input.drop length }) :=
  read_eeprom_run addr length s h hl

/-- Witness for C4 (amended) on a concrete one-byte EEPROM read. -/
theorem read_eeprom_iteration_order_witness :
    (read 5 1 true ⟨noFail, [0xCD], []⟩).1 = Res.ok [0xCD] := by
  rw [read_eeprom_iteration_order 5 1 ⟨noFail, [0xCD], []⟩ rfl (by decide)]
  decide

/-- Claim C7: `read(addr, length, eeprom=False)` with length at least 1
enters programming mode, sets the table pointer to addr exactly once, then
issues exactly `length` table-read-post-increment instructions (opcode
0x09, one-byte zero payload), reading one byte after each, exits
programming mode, and returns the `length` bytes in read order. -/
theorem read_prog_order (addr length : Nat) (s : St) (h : s.fail = noFail)
    (hl : length ≠ 0) :
    read addr length false s =
      (Res.ok (s.input.take length),
       { s with trace := s.trace ++ enterEvents ++ setTblptrEvents addr
                  ++ (List.replicate length progReadIterEvents).flatten ++ exitEvents,
                input := s.input.drop length }) :=
  read_prog_run addr length s h hl

/-- Witness for C7 on a concrete 2-byte program-memory read. -/
theorem read_prog_order_witness :
    (read 0x800 2 false ⟨noFail, [1, 2], []⟩).1 = Res.ok [1, 2] := by
  rw [read_prog_order 0x800 2 ⟨noFail, [1, 2], []⟩ rfl (by decide)]
  decide

/-- Claim C8: `erase_panel(panel)` performs exactly: enter programming
mode; set the table pointer to 0x3C0005; one plain table-write (opcode
0x0C) with panel byte 0 duplicated; set the table pointer to 0x3C0004; one
table-write with panel byte 1 duplicated; two no-op core instructions;
exit programming mode — and nothing else, in particular no
write-completion poll (the device input stream is untouched). -/
theorem erase_panel_sequence (p0 p1 : Nat) (s : St) (h : s.fail = noFail) :
    erase_panel [p0, p1] s =
      (Res.ok (),
       { s with trace := s.trace ++ enterEvents
                  ++ setTblptrEvents 0x3C0005 ++ sendCmdEvents 0x0C [p0, p0]
                  ++ setTblptrEvents 0x3C0004 ++ sendCmdEvents 0x0C [p1, p1]
                  ++ sendCmdEvents 0x00 [0x00, 0x00] ++ sendCmdEvents 0x00 [0x00, 0x00]
                  ++ exitEvents }) :=
  erase_panel_run p0 p1 s h

/-- Witness for C8 at a concrete panel identifier. -/
theorem erase_panel_sequence_witness :
    (erase_panel [0x0F, 0x8F] ⟨noFail, [], []⟩).1 = Res.ok () := by
  rw [erase_panel_sequence 0x0F 0x8F ⟨noFail, [], []⟩ rfl]

/-- Claim C9: `get_loc_ID()` with no address argument performs exactly 8
single-byte reads, re-setting the table pointer to the same starting
address 0x200000 before each and using the non-incrementing table-read
opcode 0x08, then reinterprets the 8 bytes as four 16-bit words. -/
theorem get_loc_ID_sequence (s : St) (h : s.fail = noFail)
    (hlen : 8 ≤ s.input.length) :
    get_loc_ID none s =
      (Res.ok ((List.range 4).map (fun i =>
          (s.input.take 8).getD (2 * i) 0 + 256 * (s.input.take 8).getD (2 * i + 1) 0)),
       { s with trace := s.trace ++ enterEvents
                  ++ (List.replicate 8 (locIDIterEvents 0x200000)).flatten ++ exitEvents,
                input := s.input.drop 8 }) :=
  get_loc_ID_run s h hlen

/-- Witness for C9 on a concrete 8-byte device response. -/
theorem get_loc_ID_sequence_witness :
    (get_loc_ID none ⟨noFail, [1, 2, 3, 4, 5, 6, 7, 8], []⟩).1
      = Res.ok [513, 1027, 1541, 2055] := by
  rw [get_loc_ID_sequence ⟨noFail, [1, 2, 3, 4, 5, 6, 7, 8], []⟩ rfl (by decide)]
  decide

end PyHydrabus
